import Mathlib

/-!
Verification of the why-combinator tick scheduler and its derived-state
subsystems, as a shallow embedding of `src/why_combinator` (Python).

Numeric conventions: Python floats are modelled as exact rationals `ℚ`
(or `ℝ` where the formula involves `math.exp`), machine time
(`time.time()`) is passed explicitly as a `now : ℚ` argument, and Python
dictionaries are modelled as association lists that preserve insertion
order, matching CPython `dict` semantics (update-in-place for an existing
key, append for a new key).

Components whose state never feeds back into any property verified here
(the sentiment tracker, the coalition manager, the conversation/debate
sessions, the event bus publications and the procedural report text) are
carried out of scope; the comments on each definition note the lines of
the Python source it embeds.
-/

namespace WhyCombinator

/-- One entry of an agent's memory log (`BaseAgent.add_memory`, base.py:54-55,
a dict with keys content/role/timestamp). -/
structure MemoryEntry where
  content : String
  role : String
  timestamp : ℚ
deriving DecidableEq, Repr

/-- The fields of an `InteractionLog` record consumed by the engine loop
(models.py; `simulation_id` and the free-form `outcome` payload are carried
by no verified property and omitted). -/
structure Interaction where
  agent_id : String
  target : String
  action : String
  timestamp : ℚ
deriving DecidableEq, Repr

/-! ## Relationship graph — agent/relationships.py -/

/-- relationships.py:5-9, `RelationType`. -/
inductive RelType where
  | alliance
  | rivalry
  | dependency
  | neutral
deriving DecidableEq, Repr

/-- One directed relationship edge value: relationships.py:20,
`{"type": ..., "strength": ..., "interactions": ...}`. -/
structure Edge where
  type : RelType
  strength : ℚ
  interactions : ℕ
deriving DecidableEq, Repr

/-- relationships.py:23, `max(-1.0, min(1.0, x))`. -/
def clamp (x : ℚ) : ℚ := max (-1) (min 1 x)

/-- `RelationshipGraph._edges` (relationships.py:14): the nested dict
`source -> target -> edge` flattened to an insertion-ordered association
list keyed by the `(source, target)` pair. -/
structure RelationshipGraph where
  edges : List ((String × String) × Edge)
deriving DecidableEq, Repr

/-- The net effect of `RelationshipGraph.add_or_update` (relationships.py:15-24)
on the edge table: a missing key is first inserted as
`{type, strength 0.0, interactions 0}` and then, like an existing edge,
has its type overwritten, its strength clamped after adding the delta and
its interaction count incremented; the two phases are folded into one pass. -/
def updateEdgeList : List ((String × String) × Edge) → String × String → RelType → ℚ →
    List ((String × String) × Edge)
  | [], key, t, delta => [(key, ⟨t, clamp (0 + delta), 0 + 1⟩)]
  | e :: rest, key, t, delta =>
    if e.1 = key then (key, ⟨t, clamp (e.2.strength + delta), e.2.interactions + 1⟩) :: rest
    else e :: updateEdgeList rest key t delta

/-- relationships.py:15-24. -/
def RelationshipGraph.add_or_update (g : RelationshipGraph) (source_id target_id : String)
    (rel_type : RelType) (strength_delta : ℚ) : RelationshipGraph :=
  ⟨updateEdgeList g.edges (source_id, target_id) rel_type strength_delta⟩

/-- relationships.py:25-26, `get_relationship` without the default value. -/
def RelationshipGraph.getEdge? (g : RelationshipGraph) (source_id target_id : String) :
    Option Edge :=
  (g.edges.find? (fun e => e.1 = (source_id, target_id))).map (·.2)

/-- relationships.py:27-28. -/
def RelationshipGraph.get_allies (g : RelationshipGraph) (agent_id : String)
    (threshold : ℚ) : List String :=
  (g.edges.filter (fun e =>
    e.1.1 = agent_id ∧ e.2.type = RelType.alliance ∧ threshold ≤ e.2.strength)).map (·.1.2)

/-- relationships.py:29-30. -/
def RelationshipGraph.get_rivals (g : RelationshipGraph) (agent_id : String)
    (threshold : ℚ) : List String :=
  (g.edges.filter (fun e =>
    e.1.1 = agent_id ∧ e.2.type = RelType.rivalry ∧ threshold ≤ |e.2.strength|)).map (·.1.2)

/-- relationships.py:39, `positive_actions`. -/
def positiveActions : List String := ["invest", "buy", "partner", "send_message", "collaborate"]

/-- relationships.py:40, `negative_actions`. -/
def negativeActions : List String := ["complain", "compete", "criticize", "sell"]

/-- relationships.py:37-46. -/
def RelationshipGraph.update_from_interaction (g : RelationshipGraph)
    (agent_id target_id action : String) : RelationshipGraph :=
  if action ∈ positiveActions then
    g.add_or_update agent_id target_id RelType.alliance (1/10)
  else if action ∈ negativeActions then
    g.add_or_update agent_id target_id RelType.rivalry (-(1/10))
  else
    g.add_or_update agent_id target_id RelType.neutral 0

/-! ## Emergence detector — agent/emergence.py -/

/-- One emergence flag (emergence.py:43): the human-readable `description`
f-string is carried by no verified property and omitted. -/
structure Flag where
  type : String
  severity : String
  tick : ℕ
deriving DecidableEq, Repr

/-- `EmergenceDetector` state (emergence.py:11-15). -/
structure EmergenceState where
  window_size : ℕ
  anomaly_threshold : ℚ
  action_history : List String
  flags : List Flag
deriving DecidableEq, Repr

/-- The last `n` elements of a list, Python `l[-n:]` for `n ≥ 1`. -/
def lastN (n : ℕ) (l : List α) : List α := l.drop (l.length - n)

/-- The distinct elements of `l` in first-occurrence order: the key order of
a CPython `Counter(l)`. -/
def firstOccs (l : List String) : List String :=
  l.foldl (fun acc a => if a ∈ acc then acc else acc ++ [a]) []

/-- `Counter(l).most_common(1)[0][0]` (emergence.py:35-36): the earliest-
inserted key of maximal count, `none` on an empty list. -/
def topAction (l : List String) : Option String :=
  (firstOccs l).foldl (fun acc a =>
    match acc with
    | none => some a
    | some b => if l.count b < l.count a then some a else acc) none

/-- emergence.py:42-46, `_flag`: append unless the immediately preceding
flag has the same type. -/
def EmergenceState.flag (s : EmergenceState) (flag_type severity : String) : EmergenceState :=
  let f : Flag := ⟨flag_type, severity, s.action_history.length⟩
  match s.flags.getLast? with
  | none => { s with flags := s.flags ++ [f] }
  | some prev => if prev.type = flag_type then s else { s with flags := s.flags ++ [f] }

/-- emergence.py:21-41, `_check_patterns`: the dominance loop over the
counter's keys in insertion order, then the diversity check, then the
behaviour-shift check (Python's falsy test on `prev_top`/`curr_top` is the
empty-string test). -/
def EmergenceState.check_patterns (s : EmergenceState) : EmergenceState :=
  let recent := lastN s.window_size s.action_history
  let total := recent.length
  let s1 := (firstOccs recent).foldl (fun st a =>
    if (0.6 : ℚ) < (recent.count a : ℚ) / (total : ℚ) then st.flag "action_dominance" "warning"
    else st) s
  let s2 :=
    if ((firstOccs recent).length : ℚ) / (total : ℚ) < (0.15 : ℚ) then
      s1.flag "diversity_collapse" "warning"
    else s1
  if s.window_size * 2 ≤ s.action_history.length then
    let prevW := (lastN (s.window_size * 2) s.action_history).take s.window_size
    match topAction prevW, topAction recent with
    | some prev_top, some curr_top =>
      if prev_top ≠ "" ∧ curr_top ≠ "" ∧ prev_top ≠ curr_top then
        let prev_ratio := (prevW.count curr_top : ℚ) / ((max prevW.length 1 : ℕ) : ℚ)
        let curr_ratio := (recent.count curr_top : ℚ) / (total : ℚ)
        if prev_ratio * s.anomaly_threshold < curr_ratio then s2.flag "behavior_shift" "info"
        else s2
      else s2
    | _, _ => s2
  else s2

/-- emergence.py:16-20, `observe`. -/
def EmergenceState.observe (s : EmergenceState) (action : String) : EmergenceState :=
  let s1 := { s with action_history := s.action_history ++ [action] }
  if s1.window_size ≤ s1.action_history.length then s1.check_patterns else s1

/-- emergence.py:11-15: detector as constructed by the engine
(`EmergenceDetector()`, window 20, anomaly threshold 2.0). -/
def initEmergence : EmergenceState :=
  { window_size := 20, anomaly_threshold := 2, action_history := [], flags := [] }

/-! ## Agent memory buffer — agent/base.py -/

/-- The memory-management slice of `BaseAgent` (base.py:14-26). -/
structure AgentMem where
  max_memory_size : ℕ
  memory : List MemoryEntry
deriving DecidableEq, Repr

/-- base.py:63, `max(1, int(self._max_memory_size * 0.3))`; the float
truncation `int(cap * 0.3)` is modelled as `3 * cap / 10` in `ℕ`, which
agrees with IEEE evaluation on every capacity used below. -/
def evictCount (cap : ℕ) : ℕ := max 1 (3 * cap / 10)

/-- base.py:78-92, `_create_memory_summary` (deterministic rule-based
fallback): counts per role in first-occurrence order. -/
def memorySummaryText (memories : List MemoryEntry) : String :=
  String.intercalate "; " ((firstOccs (memories.map (·.role))).map (fun role =>
    toString ((memories.filter (·.role = role)).length) ++ " " ++ role ++ " events"))

/-- base.py:60-76, `_evict_and_summarize_memory`. -/
def AgentMem.evict_and_summarize (a : AgentMem) : AgentMem :=
  let evict_count := evictCount a.max_memory_size
  let to_summarize := a.memory.take evict_count
  if to_summarize = [] then a
  else
    let summary_entry : MemoryEntry :=
      { content := "[SUMMARY of " ++ toString evict_count ++ " old memories] " ++
          memorySummaryText to_summarize
        role := "summary"
        timestamp := ((to_summarize.getLast?).map (·.timestamp)).getD 0 }
    { a with memory := summary_entry :: a.memory.drop evict_count }

/-- base.py:54-58, `add_memory`: append, then evict once the log exceeds
its capacity. -/
def AgentMem.add_memory (a : AgentMem) (content role : String) (timestamp : ℚ) : AgentMem :=
  let a1 := { a with memory := a.memory ++ [⟨content, role, timestamp⟩] }
  if a1.max_memory_size < a1.memory.length then a1.evict_and_summarize else a1

/-- base.py:127: the every-10-steps reflection is inserted at the front of
the log with no eviction check (`self.memory.insert(0, ...)`). -/
def AgentMem.insertReflection (a : AgentMem) (e : MemoryEntry) : AgentMem :=
  { a with memory := e :: a.memory }

/-! ## Batched writer — engine/performance.py -/

/-- `BatchWriter` (performance.py:57-64); the storage it appends to is held
by the engine state, so `add`/`flush` return the records persisted by the
call alongside the new writer state. -/
structure BatchWriterState where
  batch_size : ℕ
  flush_interval : ℚ
  buffer : List Interaction
  last_flush : ℚ
deriving DecidableEq, Repr

/-- performance.py:69-73, `flush`. -/
def BatchWriterState.flush (w : BatchWriterState) (now : ℚ) :
    BatchWriterState × List Interaction :=
  ({ w with buffer := [], last_flush := now }, w.buffer)

/-- performance.py:65-68, `add`. -/
def BatchWriterState.add (w : BatchWriterState) (log : Interaction) (now : ℚ) :
    BatchWriterState × List Interaction :=
  let w1 := { w with buffer := w.buffer ++ [log] }
  if w.batch_size ≤ w1.buffer.length ∨ w.flush_interval ≤ now - w.last_flush then
    w1.flush now
  else (w1, [])

/-- performance.py:59-64: writer as constructed by the engine
(batch size 50, flush interval 5.0 s), `last_flush` initialised to the
construction instant. -/
def initWriter (now : ℚ) : BatchWriterState :=
  { batch_size := 50, flush_interval := 5, buffer := [], last_flush := now }

/-! ## Simulation entity, checkpoint payload — engine/core.py -/

/-- The checkpoint payload written into `simulation.parameters` by
`SimulationEngine.checkpoint` (core.py:244-250); the sentiment-history and
coalition entries concern sub-states outside this embedding. -/
structure CheckpointData where
  current_time : ℚ
  tick_count : ℕ
  agent_memories : List (String × List MemoryEntry)
  relationships : RelationshipGraph
  emergence_action_history : List String
  emergence_flags : List Flag
deriving DecidableEq, Repr

/-- The slice of the `simulation.parameters` dict the engine reads and
writes: the checkpoint keys (written and tested together, so modelled as
one optional payload) and `relationship_decay_factor` (core.py:238). -/
structure SimParams where
  checkpoint : Option CheckpointData
  relationship_decay_factor : Option ℚ
deriving DecidableEq, Repr

/-- The fields of `SimulationEntity` the engine core reads (models.py). -/
structure SimEntity where
  id : String
  created_at : ℚ
  parameters : SimParams
deriving DecidableEq, Repr

/-- An agent as seen by the engine: its id and its memory log
(the engine reads `a.entity.id` and `a.memory`, core.py:246,264-266). -/
structure EngAgent where
  id : String
  memory : List MemoryEntry
deriving DecidableEq, Repr

/-! ## The engine — engine/core.py -/

/-- The `SimulationEngine` state (core.py:33-82) restricted to the fields
the verified properties observe, plus the storage collaborator's
interaction log and metadata record. `BaseAgent.run_step` (base.py:117) is
an `async def` that the tick loop calls without awaiting (core.py:183), so
what the loop appends to the batched writer's buffer (core.py:194) and to
the interaction cache (core.py:195) in a real run are coroutine objects,
not `InteractionLog` records; `foreign_writer_items` and
`foreign_cached_items` count those objects (a later flush touching one
would itself raise inside `storage.log_interaction`, storage.py:131),
while the typed `writer.buffer` and `cached_interactions` lists carry the
`InteractionLog` records the writer's interface is specified over. -/
structure EngineState where
  simulation : SimEntity
  is_running : Bool
  is_paused : Bool
  tick_count : ℕ
  current_time : ℚ
  consecutive_failures : ℕ
  max_failures : Option ℕ
  writer : BatchWriterState
  foreign_writer_items : ℕ
  cached_interactions : List Interaction
  foreign_cached_items : ℕ
  relationships : RelationshipGraph
  emergence : EmergenceState
  agents : List EngAgent
  storage_interactions : List Interaction
  storage_metadata : Option SimEntity
deriving DecidableEq, Repr

/-- core.py:33-82, `SimulationEngine.__init__` against a fresh storage
(`now` is the construction instant that seeds the writer's flush clock). -/
def initEngine (sim : SimEntity) (now : ℚ) : EngineState :=
  { simulation := sim
    is_running := false
    is_paused := false
    tick_count := 0
    current_time := sim.created_at
    consecutive_failures := 0
    max_failures := none
    writer := initWriter now
    foreign_writer_items := 0
    cached_interactions := []
    foreign_cached_items := 0
    relationships := ⟨[]⟩
    emergence := initEmergence
    agents := []
    storage_interactions := []
    storage_metadata := none }

/-- core.py:104-114, `spawn_agent` repeated over a list of agent ids
(a freshly constructed agent carries an empty memory log, base.py:17). -/
def EngineState.spawnAgents (s : EngineState) (ids : List String) : EngineState :=
  { s with agents := s.agents ++ ids.map (fun id => ⟨id, []⟩) }

/-- core.py:115-121, `start`. -/
def EngineState.start (s : EngineState) : EngineState :=
  if s.is_running then s
  else { s with is_running := true, is_paused := false }

/-- core.py:122-127, `stop`: clear both flags, then flush the batched
writer synchronously. -/
def EngineState.stop (s : EngineState) (now : ℚ) : EngineState :=
  let s1 := { s with is_running := false, is_paused := false }
  let wf := s1.writer.flush now
  { s1 with writer := wf.1, storage_interactions := s1.storage_interactions ++ wf.2 }

/-- core.py:128-132, `pause`. -/
def EngineState.pause (s : EngineState) : EngineState :=
  if s.is_running ∧ ¬ s.is_paused then { s with is_paused := true } else s

/-- core.py:133-138, `resume`. -/
def EngineState.resume (s : EngineState) : EngineState :=
  if s.is_running ∧ s.is_paused then { s with is_paused := false } else s

/-- core.py:139-242, `step`, as the code actually executes. The guard
(line 140) and the tick-count/virtual-clock advance (142-143) are as
written. In the per-agent loop (181-198), the call
`agent.run_step(self.world_state, self.current_time)` at line 183 is not
awaited although `BaseAgent.run_step` (base.py:117) is an `async def`:
the call returns a fresh coroutine object and never raises, so the
`except` branch (184-191) that increments the consecutive-failure counter
and enforces the ceiling (187-190) is unreachable, while the coroutine is
truthy, so line 193 resets the counter to zero, line 194 hands the
coroutine to the batched writer (if that add reaches the flush threshold,
the flush raises `AttributeError` at the first buffered item inside
`storage.log_interaction`, performance.py:70-71 / storage.py:131, leaving
the buffer uncleared), otherwise line 195 caches the coroutine and line
196 (`interaction.agent_id`) raises an uncaught `AttributeError`. Either
raise aborts the tick at its first agent, before the tick event, the
metrics emission, and the decay call. With no agents the loop is skipped,
the 10-tick `_emit_metrics` flushes the writer (200-201, 286; in a real
agentless run the buffer is empty), and the tick then raises at the
missing `relationships.tick` (line 239, see C4) — so the 100-tick
checkpoint at line 242 is unreachable either way. The returned flag is
`false` exactly when the tick raises. The world-state refresh, event
generator, market step, event publications and the
coalition/conversation/debate blocks mutate no state observed here. -/
def EngineState.step (s : EngineState) (duration now : ℚ) : EngineState × Bool :=
  if ¬ s.is_running ∨ s.is_paused then (s, true)
  else
    let s1 := { s with tick_count := s.tick_count + 1, current_time := s.current_time + duration }
    match s1.agents with
    | [] =>
      let s3 :=
        if s1.tick_count % 10 = 0 then
          let wf := s1.writer.flush now
          { s1 with writer := wf.1, storage_interactions := s1.storage_interactions ++ wf.2 }
        else s1
      (s3, false)
    | _ :: _ =>
      let s2 := { s1 with
        consecutive_failures := 0
        foreign_writer_items := s1.foreign_writer_items + 1 }
      if s2.writer.batch_size ≤ s2.writer.buffer.length + s2.foreign_writer_items ∨
          s2.writer.flush_interval ≤ now - s2.writer.last_flush then
        (s2, false)
      else
        ({ s2 with foreign_cached_items := s2.foreign_cached_items + 1 }, false)

/-- Python `l[-20:]`, the per-agent memory tail stored by `checkpoint`. -/
def tail20 (l : List MemoryEntry) : List MemoryEntry := l.drop (l.length - 20)

/-- core.py:243-256, `checkpoint`: embed the snapshot in
`simulation.parameters` and persist the updated entity as the simulation's
metadata record. It performs no batch-writer flush. -/
def EngineState.checkpoint (s : EngineState) : EngineState :=
  let payload : CheckpointData :=
    { current_time := s.current_time
      tick_count := s.tick_count
      agent_memories := s.agents.map (fun a => (a.id, tail20 a.memory))
      relationships := s.relationships
      emergence_action_history := lastN 100 s.emergence.action_history
      emergence_flags := (s.emergence.flags.reverse.take 50).reverse }
  let sim := { s.simulation with
    parameters := { s.simulation.parameters with checkpoint := some payload } }
  { s with simulation := sim, storage_metadata := some sim }

/-- core.py:257-282, `restore_from_checkpoint`; the returned flag is the
method's boolean result. -/
def EngineState.restore_from_checkpoint (s : EngineState) : EngineState × Bool :=
  match s.simulation.parameters.checkpoint with
  | none => (s, false)
  | some c =>
    ({ s with
        current_time := c.current_time
        tick_count := c.tick_count
        agents := s.agents.map (fun a =>
          match c.agent_memories.find? (fun p => p.1 = a.id) with
          | some p => { a with memory := p.2 }
          | none => a)
        relationships := c.relationships
        emergence := { s.emergence with
          action_history := c.emergence_action_history
          flags := c.emergence_flags }
        cached_interactions := s.storage_interactions
        foreign_cached_items := 0 }, true)

/-- core.py:308-313, `finalize`: flush the batched writer, then build the
critique report (procedural text, out of the verified scope). -/
def EngineState.finalize (s : EngineState) (now : ℚ) : EngineState :=
  let wf := s.writer.flush now
  { s with writer := wf.1, storage_interactions := s.storage_interactions ++ wf.2 }

/-! ## Call sequences over the engine -/

/-- One invocation of `step(duration)` at wall-clock instant `now` (Python
callers catching the tick's uncaught exception and state mutation persist
across the raise, so repeated calls remain meaningful). -/
structure StepCall where
  duration : ℚ
  now : ℚ
deriving DecidableEq, Repr

/-- Repeated `step` calls. -/
def runSteps : EngineState → List StepCall → EngineState
  | s, [] => s
  | s, c :: cs => runSteps (s.step c.duration c.now).1 cs

/-- The scheduler is running and unpaused at the moment of each call of the
sequence. -/
def ActiveThroughout : EngineState → List StepCall → Prop
  | _, [] => True
  | s, c :: cs =>
    s.is_running = true ∧ s.is_paused = false ∧
      ActiveThroughout (s.step c.duration c.now).1 cs

/-- A command-surface call against the scheduler (core.py:115-242). -/
inductive EngineOp where
  | start
  | pause
  | resume
  | stop (now : ℚ)
  | step (duration now : ℚ)
deriving DecidableEq, Repr

/-- Apply one lifecycle call. -/
def applyOp (s : EngineState) : EngineOp → EngineState
  | EngineOp.start => s.start
  | EngineOp.pause => s.pause
  | EngineOp.resume => s.resume
  | EngineOp.stop now => s.stop now
  | EngineOp.step duration now => (s.step duration now).1

/-- Apply a sequence of lifecycle calls. -/
def applyOps (s : EngineState) (ops : List EngineOp) : EngineState :=
  ops.foldl applyOp s

/-! ## Economics — economics.py / generation.py -/

/-- generation.py:144 / economics.py:9: the logistic growth rate derived
from the viral-coefficient and conversion-rate parameters. -/
def adoptionK (viral_coefficient conversion_rate : ℝ) : ℝ :=
  viral_coefficient * 0.5 + conversion_rate * 2.0

/-- generation.py:150 / economics.py:13, the logistic S-curve
`1 / (1 + exp(-k * (tick - t0)))`. -/
noncomputable def adoptionRate (k t0 tick : ℝ) : ℝ :=
  1 / (1 + Real.exp (-k * (tick - t0)))

/-- The three figures returned by `calculate_revenue_metrics`
(economics.py:71-121) on its `model = "transactional"` branch
(economics.py:78-88). -/
structure RevenueMetrics where
  monthly_revenue : ℚ
  cumulative_revenue : ℚ
  monthly_new_customers : ℚ
deriving DecidableEq, Repr

/-- economics.py:78-88, the transactional branch of
`calculate_revenue_metrics`. -/
def calculate_revenue_metrics_transactional (interactions : List Interaction)
    (tick_count : ℕ) (price : ℚ) : RevenueMetrics :=
  let buy_count_total := (interactions.filter (fun i => i.action = "buy")).length
  let monthly_new_customers := ((buy_count_total : ℚ) / (max tick_count 1 : ℕ)) * 30
  { monthly_revenue := monthly_new_customers * price
    cumulative_revenue := (buy_count_total : ℚ) * price
    monthly_new_customers := monthly_new_customers }

/-! ## Concrete inputs for witnesses and counterexamples -/

/-- A sample simulation entity with no checkpoint stored yet. -/
def sampleSim : SimEntity :=
  { id := "sim-1", created_at := 0, parameters := ⟨none, none⟩ }

/-- A freshly constructed engine over `sampleSim`. -/
def sampleEngine : EngineState := initEngine sampleSim 0

/-- A sample interaction record. -/
def sampleInteraction : Interaction :=
  { agent_id := "a1", target := "startup", action := "buy", timestamp := 1 }

/-- The fixed scenario log of the spec's economics property: 100 `"buy"`
actions evenly spaced over 1000 ticks. -/
def buys100 : List Interaction :=
  (List.range 100).map (fun (j : ℕ) =>
    { agent_id := "customer", target := "startup", action := "buy",
      timestamp := 10 * (j : ℚ) + 10 })

/-- The checkpoint→restore scenario of the spec: checkpoint `e`, construct a
fresh engine against the persisted simulation entity (over a storage whose
interaction log is `st`), spawn the same actor ids, and restore. -/
def freshRestored (e : EngineState) (now0 : ℚ) (st : List Interaction) : EngineState :=
  ((({ initEngine e.checkpoint.simulation now0 with
        storage_interactions := st } : EngineState).spawnAgents
    (e.agents.map EngAgent.id)).restore_from_checkpoint).1

/-- An engine mid-run: 7 ticks taken, one agent holding one memory entry. -/
def sampleRunEngine : EngineState :=
  { sampleEngine with
    tick_count := 7
    current_time := 42
    agents := [⟨"a1", [⟨"m1", "observation", 1⟩]⟩] }

/-- An agent memory buffer at its configured capacity 7. -/
def sampleMem7 : AgentMem :=
  { max_memory_size := 7, memory := List.replicate 7 ⟨"old", "observation", 0⟩ }

/-- An engine whose batched writer holds one unflushed interaction. -/
def bufferedEngine : EngineState :=
  { sampleEngine with
    writer := { batch_size := 50, flush_interval := 5,
                buffer := [sampleInteraction], last_flush := 0 } }

/-! ## Helper lemmas: relationship graph -/

theorem find?_updateEdgeList (l : List ((String × String) × Edge)) (key : String × String)
    (t : RelType) (delta : ℚ) (e : Edge)
    (h : (l.find? (fun p => p.1 = key)).map (·.2) = some e) :
    ((updateEdgeList l key t delta).find? (fun p => p.1 = key)).map (·.2) =
      some ⟨t, clamp (e.strength + delta), e.interactions + 1⟩ := by
  induction l with
  | nil => simp [List.find?] at h
  | cons hd tl ih =>
    rw [updateEdgeList]
    by_cases hk : hd.1 = key
    · rw [if_pos hk]
      rw [List.find?_cons_of_pos _ (by simp [hk])] at h
      rw [List.find?_cons_of_pos _ (by simp)]
      have h2 : hd.2 = e := by simpa using h
      subst h2
      rfl
    · rw [if_neg hk]
      rw [List.find?_cons_of_neg _ (by simp [hk])] at h
      rw [List.find?_cons_of_neg _ (by simp [hk])]
      exact ih h

theorem type_of_mem_updateEdgeList (l : List ((String × String) × Edge)) (key : String × String)
    (t : RelType) (delta : ℚ) (hn : (l.map (·.1)).Nodup) :
    ∀ p ∈ updateEdgeList l key t delta, p.1 = key → p.2.type = t := by
  induction l with
  | nil =>
    intro p hp _
    rw [updateEdgeList] at hp
    simp at hp
    simp [hp]
  | cons hd tl ih =>
    simp only [List.map_cons, List.nodup_cons] at hn
    by_cases hk : hd.1 = key
    · intro p hp hpk
      rw [updateEdgeList] at hp
      simp only [if_pos hk] at hp
      rcases List.mem_cons.mp hp with h | h
      · simp [h]
      · exfalso
        apply hn.1
        rw [hk, ← hpk]
        exact List.mem_map.mpr ⟨p, h, rfl⟩
    · intro p hp hpk
      rw [updateEdgeList] at hp
      simp only [if_neg hk] at hp
      rcases List.mem_cons.mp hp with h | h
      · exact absurd (h ▸ hpk) hk
      · exact ih hn.2 p h hpk

theorem clamp_of_mem_Icc {x : ℚ} (hlo : -1 ≤ x) (hhi : x ≤ 1) : clamp x = x := by
  unfold clamp
  rw [min_eq_right hhi, max_eq_right hlo]

/-! ## Helper lemmas: engine step -/

theorem step_inactive (s : EngineState) (duration now : ℚ)
    (h : s.is_running = false ∨ s.is_paused = true) :
    s.step duration now = (s, true) := by
  unfold EngineState.step
  rw [if_pos]
  rcases h with h | h
  · exact Or.inl (by simp [h])
  · exact Or.inr (by simp [h])

theorem step_active_tick_count (s : EngineState) (duration now : ℚ)
    (hrun : s.is_running = true) (hpause : s.is_paused = false) :
    (s.step duration now).1.tick_count = s.tick_count + 1 := by
  simp only [EngineState.step]
  rw [if_neg (by simp [hrun, hpause])]
  split
  · split
    · rfl
    · rfl
  · split
    · rfl
    · rfl

theorem step_flags (s : EngineState) (duration now : ℚ) :
    (s.step duration now).1.is_running = s.is_running ∧
    (s.step duration now).1.is_paused = s.is_paused := by
  simp only [EngineState.step]
  split
  · exact ⟨rfl, rfl⟩
  · split
    · split
      · exact ⟨rfl, rfl⟩
      · exact ⟨rfl, rfl⟩
    · split
      · exact ⟨rfl, rfl⟩
      · exact ⟨rfl, rfl⟩

theorem applyOp_paused_imp_running (s : EngineState) (op : EngineOp)
    (h : s.is_paused = true → s.is_running = true) :
    (applyOp s op).is_paused = true → (applyOp s op).is_running = true := by
  cases op with
  | start =>
    simp only [applyOp, EngineState.start]
    split
    · exact h
    · intro hp
      exact absurd hp (by simp)
  | pause =>
    simp only [applyOp, EngineState.pause]
    split
    · rename_i hc
      intro _
      exact hc.1
    · exact h
  | resume =>
    simp only [applyOp, EngineState.resume]
    split
    · intro hp
      exact absurd hp (by simp)
    · exact h
  | stop now =>
    simp only [applyOp, EngineState.stop]
    intro hp
    exact absurd hp (by simp)
  | step duration now =>
    simp only [applyOp]
    rw [(step_flags s duration now).2, (step_flags s duration now).1]
    exact h


/-- C10: processing an interaction whose action is in neither the
cooperative set nor the antagonistic set (e.g. the neutral `"wait"`
fallback) overwrites an existing edge's type to neutral, leaves its
strength unchanged, increments its interaction count, and removes the
target from the source's ally and rival lists at every threshold. -/
theorem C10_neutral_action_resets_edge (g : RelationshipGraph) (src tgt action : String)
    (e : Edge) (hn : (g.edges.map (·.1)).Nodup)
    (hfound : g.getEdge? src tgt = some e)
    (hlo : -1 ≤ e.strength) (hhi : e.strength ≤ 1)
    (hpos : action ∉ positiveActions) (hneg : action ∉ negativeActions) :
    (g.update_from_interaction src tgt action).getEdge? src tgt =
      some ⟨RelType.neutral, e.strength, e.interactions + 1⟩ ∧
    ∀ threshold : ℚ,
      tgt ∉ (g.update_from_interaction src tgt action).get_allies src threshold ∧
      tgt ∉ (g.update_from_interaction src tgt action).get_rivals src threshold := by
  have hred : g.update_from_interaction src tgt action =
      g.add_or_update src tgt RelType.neutral 0 := by
    unfold RelationshipGraph.update_from_interaction
    rw [if_neg hpos, if_neg hneg]
  rw [hred]
  constructor
  · have := find?_updateEdgeList g.edges (src, tgt) RelType.neutral 0 e hfound
    unfold RelationshipGraph.add_or_update RelationshipGraph.getEdge?
    unfold RelationshipGraph.getEdge? at this hfound
    rw [this, add_zero, clamp_of_mem_Icc hlo hhi]
  · intro threshold
    have hkey : ∀ p ∈ updateEdgeList g.edges (src, tgt) RelType.neutral 0,
        p.1 = (src, tgt) → p.2.type = RelType.neutral :=
      type_of_mem_updateEdgeList g.edges (src, tgt) RelType.neutral 0 hn
    constructor
    · intro hmem
      unfold RelationshipGraph.get_allies RelationshipGraph.add_or_update at hmem
      rcases List.mem_map.mp hmem with ⟨p, hpmem, hptgt⟩
      rcases List.mem_filter.mp hpmem with ⟨hpl, hprop⟩
      simp only [decide_eq_true_eq] at hprop
      have hp1 : p.1 = (src, tgt) := Prod.ext hprop.1 hptgt
      have := hkey p hpl hp1
      rw [this] at hprop
      exact absurd hprop.2.1 (by simp)
    · intro hmem
      unfold RelationshipGraph.get_rivals RelationshipGraph.add_or_update at hmem
      rcases List.mem_map.mp hmem with ⟨p, hpmem, hptgt⟩
      rcases List.mem_filter.mp hpmem with ⟨hpl, hprop⟩
      simp only [decide_eq_true_eq] at hprop
      have hp1 : p.1 = (src, tgt) := Prod.ext hprop.1 hptgt
      have := hkey p hpl hp1
      rw [this] at hprop
      exact absurd hprop.2.1 (by simp)

/-- Witness for C10 at a concrete one-edge graph and the `"wait"` action. -/
theorem C10_neutral_action_resets_edge_witness :
    (RelationshipGraph.mk [(("a", "b"), ⟨RelType.alliance, 1/2, 3⟩)]
      |>.update_from_interaction "a" "b" "wait").getEdge? "a" "b" =
        some ⟨RelType.neutral, 1/2, 4⟩ ∧
    "b" ∉ (RelationshipGraph.mk [(("a", "b"), ⟨RelType.alliance, 1/2, 3⟩)]
      |>.update_from_interaction "a" "b" "wait").get_allies "a" (3/10) ∧
    "b" ∉ (RelationshipGraph.mk [(("a", "b"), ⟨RelType.alliance, 1/2, 3⟩)]
      |>.update_from_interaction "a" "b" "wait").get_rivals "a" (3/10) := by
  have h := C10_neutral_action_resets_edge
    (RelationshipGraph.mk [(("a", "b"), ⟨RelType.alliance, 1/2, 3⟩)]) "a" "b" "wait"
    ⟨RelType.alliance, 1/2, 3⟩ (by decide) rfl (by norm_num) (by norm_num)
    (by decide) (by decide)
  exact ⟨h.1, (h.2 (3/10)).1, (h.2 (3/10)).2⟩

/-- C1: while the scheduler is running and not paused, each `step()` call
advances `tick_count` by exactly one — so N such calls add N — and a
`step()` call made while paused or stopped returns at the guard
(core.py:140-141) and leaves the whole engine state, tick count and
virtual clock included, unchanged. -/
theorem C1_step_tick_count (s : EngineState) (cs : List StepCall)
    (h : ActiveThroughout s cs) :
    (runSteps s cs).tick_count = s.tick_count + cs.length ∧
    ∀ (t : EngineState) (duration now : ℚ),
      t.is_running = false ∨ t.is_paused = true →
      (t.step duration now).1 = t := by
  constructor
  · induction cs generalizing s with
    | nil => simp [runSteps]
    | cons c cs' ih =>
      rcases h with ⟨hrun, hpause, h'⟩
      rw [runSteps, ih _ h', step_active_tick_count s c.duration c.now hrun hpause,
        List.length_cons]
      omega
  · intro t duration now ht
    rw [step_inactive t duration now ht]

/-- Witness for C1: one active step from a freshly started engine advances
the tick count from 0 to 1, and a step against the stopped fresh engine is
the identity. -/
theorem C1_step_tick_count_witness :
    (runSteps sampleEngine.start [⟨1, 0⟩]).tick_count = sampleEngine.start.tick_count + 1 ∧
    (sampleEngine.step 1 0).1 = sampleEngine :=
  ⟨(C1_step_tick_count sampleEngine.start [⟨1, 0⟩] ⟨rfl, rfl, trivial⟩).1,
   (C1_step_tick_count sampleEngine.start [⟨1, 0⟩] ⟨rfl, rfl, trivial⟩).2
     sampleEngine 1 0 (Or.inl rfl)⟩

/-- C2: the consecutive-failure mechanism the claim describes is dead
code, because `BaseAgent.run_step` (base.py:117) is an `async def` that
`step()` calls without awaiting (core.py:183). The call returns a truthy
coroutine and never raises, so the `except` branch feeding the
counter/ceiling (core.py:184-191) is unreachable, the counter is reset by
the coroutine's truthiness (not by any completed actor step), and the tick
dies at the uncaught `AttributeError` of core.py:196 — the repository's
own tests call `run_step` synchronously and assert on the returned
record's fields (tests/test_agent.py:12-16), failing the same way. At the
failing input — a started engine with the ceiling configured to 1 and one
spawned agent — the tick raises with the scheduler still running (no
ceiling stop can ever occur), the counter at zero, and a coroutine object,
not an interaction record, in the cache. -/
theorem C2_unawaited_run_step_no_failure_path :
    ∃ s', ({ sampleEngine.start with
        max_failures := some 1
        agents := [⟨"a1", []⟩] } : EngineState).step 1 0 = (s', false) ∧
      s'.is_running = true ∧ s'.consecutive_failures = 0 ∧
      s'.tick_count = 1 ∧ s'.foreign_cached_items = 1 := by
  simp only [EngineState.step]
  rw [if_neg (by decide)]
  rw [if_neg (by norm_num [sampleEngine, initEngine, initWriter, EngineState.start])]
  exact ⟨_, rfl, rfl, rfl, rfl, rfl⟩


/-- C5 counterexample: the claim "is_running and is_paused are never both
true at once" is false on the code as written: starting and then pausing a
fresh scheduler leaves `is_running = True` while setting `is_paused = True`
(pause only sets the paused flag, core.py:128-132). -/
theorem C5_counterexample :
    (applyOps sampleEngine [EngineOp.start, EngineOp.pause]).is_running = true ∧
    (applyOps sampleEngine [EngineOp.start, EngineOp.pause]).is_paused = true :=
  ⟨rfl, rfl⟩

/-- C5 (amended): the two booleans are not mutually exclusive — the pair
`is_running ∧ is_paused` encodes the paused state — and the invariant that
does hold in every state reachable by start/pause/resume/stop/step calls
is that `is_paused` implies `is_running`: the scheduler is never paused
and stopped at the same time. -/
theorem C5_paused_implies_running (s : EngineState) (ops : List EngineOp)
    (h : s.is_paused = true → s.is_running = true) :
    (applyOps s ops).is_paused = true → (applyOps s ops).is_running = true := by
  induction ops generalizing s with
  | nil => exact h
  | cons op rest ih => exact ih (applyOp s op) (applyOp_paused_imp_running s op h)

/-- Witness for the amended C5 at the concrete start-then-pause trace. -/
theorem C5_paused_implies_running_witness :
    (applyOps sampleEngine [EngineOp.start, EngineOp.pause]).is_running = true :=
  C5_paused_implies_running sampleEngine [EngineOp.start, EngineOp.pause]
    (fun hp => absurd hp (by decide)) rfl

theorem find?_assoc_of_nodup (agents : List EngAgent)
    (hnodup : (agents.map EngAgent.id).Nodup) (a : EngAgent) (ha : a ∈ agents) :
    (agents.map (fun x => (x.id, tail20 x.memory))).find? (fun p => p.1 = a.id) =
      some (a.id, tail20 a.memory) := by
  induction agents with
  | nil => cases ha
  | cons b tl ih =>
    simp only [List.map_cons, List.nodup_cons] at hnodup
    rcases List.mem_cons.mp ha with rfl | hmem
    · rw [List.map_cons, List.find?_cons_of_pos _ (by simp)]
    · have hne : ¬ (b.id = a.id) := by
        intro hEq
        exact hnodup.1 (hEq ▸ List.mem_map.mpr ⟨a, hmem, rfl⟩)
      rw [List.map_cons, List.find?_cons_of_neg _ (by simp [hne])]
      exact ih hnodup.2 hmem

theorem tail20_length_le (l : List MemoryEntry) : (tail20 l).length ≤ 20 := by
  unfold tail20
  rw [List.length_drop]
  omega

theorem tail20_idem (l : List MemoryEntry) : tail20 (tail20 l) = tail20 l := by
  show (tail20 l).drop ((tail20 l).length - 20) = tail20 l
  have h : (tail20 l).length - 20 = 0 := by
    have := tail20_length_le l
    omega
  rw [h, List.drop_zero]

/-- C3: after any run prefix, `checkpoint` embeds the snapshot in the
persisted simulation entity, and a fresh engine constructed against that
entity, with the same actor ids spawned, yields after
`restore_from_checkpoint` the pre-checkpoint `tick_count` and virtual clock
exactly, and per-actor memories equal to the stored 20-entry tails — so
every actor's memory tail matches its pre-checkpoint tail exactly. -/
theorem C3_checkpoint_restore_roundtrip (e : EngineState) (now0 : ℚ) (st : List Interaction)
    (hnodup : (e.agents.map EngAgent.id).Nodup) :
    e.checkpoint.storage_metadata = some e.checkpoint.simulation ∧
    (freshRestored e now0 st).tick_count = e.tick_count ∧
    (freshRestored e now0 st).current_time = e.current_time ∧
    (freshRestored e now0 st).agents =
      e.agents.map (fun a => ⟨a.id, tail20 a.memory⟩) ∧
    ∀ a ∈ e.agents, ∃ a' ∈ (freshRestored e now0 st).agents,
      a'.id = a.id ∧ tail20 a'.memory = tail20 a.memory := by
  have hag : (freshRestored e now0 st).agents =
      e.agents.map (fun a => ⟨a.id, tail20 a.memory⟩) := by
    show (([] ++ (e.agents.map EngAgent.id).map (fun id => (⟨id, []⟩ : EngAgent))).map
      (fun (a : EngAgent) =>
        match (e.agents.map (fun (x : EngAgent) => (x.id, tail20 x.memory))).find?
            (fun (p : String × List MemoryEntry) => p.1 = a.id) with
        | some p => { a with memory := p.2 }
        | none => a)) = e.agents.map (fun a => ⟨a.id, tail20 a.memory⟩)
    rw [List.nil_append, List.map_map, List.map_map]
    refine List.map_congr_left ?_
    intro a ha
    simp only [Function.comp]
    rw [find?_assoc_of_nodup e.agents hnodup a ha]
  refine ⟨rfl, rfl, rfl, hag, ?_⟩
  intro a ha
  refine ⟨⟨a.id, tail20 a.memory⟩, ?_, rfl, tail20_idem a.memory⟩
  rw [hag]
  exact List.mem_map.mpr ⟨a, ha, rfl⟩

/-- Witness for C3 at an engine 7 ticks in with one remembered entry. -/
theorem C3_checkpoint_restore_roundtrip_witness :
    (freshRestored sampleRunEngine 0 []).tick_count = 7 ∧
    (freshRestored sampleRunEngine 0 []).current_time = 42 ∧
    (freshRestored sampleRunEngine 0 []).agents = [⟨"a1", [⟨"m1", "observation", 1⟩]⟩] := by
  have h := C3_checkpoint_restore_roundtrip sampleRunEngine 0 [] (by decide)
  exact ⟨h.2.1, h.2.2.1, h.2.2.2.1.trans rfl⟩

/-- C4: every tick that gets past its agent loop reaches the relationship
decay call `self.relationships.tick(decay)` (core.py:239), but
`RelationshipGraph` defines no method `tick` — the repository's own test,
`test_relationship_decay` (tests/test_relationships.py:16), calls the same
missing `graph.tick(decay_factor=0.99)` — so the call raises
`AttributeError` and no decay is ever applied (a tick with agents spawned
dies even earlier, at core.py:196). In the embedding the step's second
component is `false` exactly when the tick raises: here one tick of a
freshly started agentless engine reaches line 239 and raises, after having
advanced the tick counter. -/
theorem C4_step_decay_attribute_error :
    (sampleEngine.start.step 1 0).2 = false ∧
    (sampleEngine.start.step 1 0).1.tick_count = 1 :=
  ⟨rfl, rfl⟩

/-! ## Helper lemmas: memory buffer -/

theorem add_memory_max (a : AgentMem) (c r : String) (ts : ℚ) :
    (a.add_memory c r ts).max_memory_size = a.max_memory_size := by
  simp only [AgentMem.add_memory, AgentMem.evict_and_summarize]
  split
  · split
    · rfl
    · rfl
  · rfl

theorem add_memory_length_le (a : AgentMem) (c r : String) (ts : ℚ)
    (hcap : 7 ≤ a.max_memory_size) (hlen : a.memory.length ≤ a.max_memory_size) :
    (a.add_memory c r ts).memory.length ≤ a.max_memory_size := by
  simp only [AgentMem.add_memory, AgentMem.evict_and_summarize]
  split
  · split
    · rename_i hov hts
      exfalso
      rw [List.take_eq_nil_iff] at hts
      rcases hts with h0 | hnil
      · unfold evictCount at h0
        omega
      · exact absurd hnil (by simp)
    · rename_i hov hts
      simp only [List.length_cons, List.length_drop, List.length_append,
        List.length_singleton, List.length_cons, List.length_nil]
      have hk : 2 ≤ evictCount a.max_memory_size := by
        unfold evictCount
        omega
      simp only [List.length_append, List.length_singleton, List.length_cons, List.length_nil] at hov
      omega
  · rename_i hov
    simp only [List.length_append, List.length_singleton, List.length_cons, List.length_nil] at hov ⊢
    omega

theorem add_memory_getLast (a : AgentMem) (c r : String) (ts : ℚ)
    (hcap : 1 ≤ a.max_memory_size) (hlen : a.memory.length ≤ a.max_memory_size) :
    (a.add_memory c r ts).memory.getLast? = some ⟨c, r, ts⟩ := by
  simp only [AgentMem.add_memory, AgentMem.evict_and_summarize]
  split
  · split
    · exact List.getLast?_concat _
    · rename_i hov hts
      have hk : evictCount a.max_memory_size ≤ a.memory.length := by
        unfold evictCount
        simp only [List.length_append, List.length_singleton, List.length_cons, List.length_nil] at hov
        omega
      rw [List.drop_append_of_le_length hk, ← List.cons_append, List.getLast?_concat]
  · exact List.getLast?_concat _

theorem add_memory_head_summary (a : AgentMem) (c r : String) (ts : ℚ)
    (hover : a.max_memory_size < a.memory.length + 1) :
    ((a.add_memory c r ts).memory.head?.map (fun m => m.role)) = some "summary" := by
  simp only [AgentMem.add_memory, AgentMem.evict_and_summarize]
  rw [if_pos (by simp only [List.length_append, List.length_singleton, List.length_cons, List.length_nil]; omega)]
  split
  · rename_i hts
    exfalso
    rw [List.take_eq_nil_iff] at hts
    rcases hts with h0 | hnil
    · unfold evictCount at h0
      omega
    · exact absurd hnil (by simp)
  · rfl

theorem foldl_add_memory_length (adds : List (String × String × ℚ)) :
    ∀ (a : AgentMem), 7 ≤ a.max_memory_size → a.memory.length ≤ a.max_memory_size →
    (adds.foldl (fun st x => st.add_memory x.1 x.2.1 x.2.2) a).memory.length ≤
      (adds.foldl (fun st x => st.add_memory x.1 x.2.1 x.2.2) a).max_memory_size ∧
    (adds.foldl (fun st x => st.add_memory x.1 x.2.1 x.2.2) a).max_memory_size =
      a.max_memory_size := by
  induction adds with
  | nil => exact fun a _ h2 => ⟨h2, rfl⟩
  | cons x rest ih =>
    intro a h1 h2
    have hmax := add_memory_max a x.1 x.2.1 x.2.2
    have hstep := add_memory_length_le a x.1 x.2.1 x.2.2 h1 h2
    have hrec := ih (a.add_memory x.1 x.2.1 x.2.2) (by rw [hmax]; exact h1)
      (by rw [hmax]; exact hstep)
    exact ⟨hrec.1, hrec.2.trans hmax⟩

/-- C6 counterexample: the claim "the memory buffer never exceeds its
configured capacity" is false as stated: with capacity 3, four additions
leave four entries — the eviction collapses `max(1, int(0.3*3)) = 1` oldest
entry but prepends one summary, so the buffer settles at capacity + 1. -/
theorem C6_counterexample :
    ((((AgentMem.mk 3 []).add_memory "m1" "observation" 0).add_memory "m2" "observation"
        0 |>.add_memory "m3" "observation" 0 |>.add_memory "m4" "observation" 0).memory.length
      = 4) ∧
    (((AgentMem.mk 3 []).add_memory "m1" "observation" 0).add_memory "m2" "observation"
        0 |>.add_memory "m3" "observation" 0 |>.add_memory "m4" "observation"
        0).max_memory_size = 3 :=
  ⟨rfl, rfl⟩

/-- C6 (amended): an addition that pushes the log over capacity collapses
the oldest `max(1, int(30%·capacity))` entries into a single summary entry
prepended at the front, and the newest entry is never evicted; for
capacities of at least 7 the buffer never exceeds its capacity after any
sequence of `add_memory` calls (for smaller capacities it settles at
capacity + 1, and the every-10-step reflection insert of `run_step`
bypasses the eviction check, so mid-cycle the buffer can transiently hold
one extra entry until the next addition). -/
theorem C6_memory_eviction (a : AgentMem) (adds : List (String × String × ℚ))
    (hcap : 7 ≤ a.max_memory_size) (hlen : a.memory.length ≤ a.max_memory_size) :
    (adds.foldl (fun st x => st.add_memory x.1 x.2.1 x.2.2) a).memory.length ≤
      a.max_memory_size ∧
    (∀ (c r : String) (ts : ℚ),
      (a.add_memory c r ts).memory.getLast? = some ⟨c, r, ts⟩) ∧
    (∀ (c r : String) (ts : ℚ), a.max_memory_size < a.memory.length + 1 →
      ((a.add_memory c r ts).memory.head?.map (fun m => m.role)) = some "summary") := by
  have hfold := foldl_add_memory_length adds a hcap hlen
  refine ⟨hfold.2 ▸ hfold.1, ?_, ?_⟩
  · intro c r ts
    exact add_memory_getLast a c r ts (by omega) hlen
  · intro c r ts hover
    exact add_memory_head_summary a c r ts hover

/-- Witness for the amended C6 at a capacity-7 buffer already full. -/
theorem C6_memory_eviction_witness :
    ([("x", "observation", (0 : ℚ))].foldl
      (fun st x => st.add_memory x.1 x.2.1 x.2.2) sampleMem7).memory.length ≤ 7 ∧
    (sampleMem7.add_memory "x" "observation" 0).memory.getLast? =
      some ⟨"x", "observation", 0⟩ ∧
    ((sampleMem7.add_memory "x" "observation" 0).memory.head?.map (fun m => m.role)) =
      some "summary" := by
  have h := C6_memory_eviction sampleMem7 [("x", "observation", (0 : ℚ))]
    (by decide) (by decide)
  exact ⟨h.1, h.2.1 "x" "observation" 0, h.2.2 "x" "observation" 0 (by decide)⟩

/-- C7 counterexample: the claim that `checkpoint()` persists every
buffered interaction before returning is false: on an engine holding one
buffered interaction, `checkpoint` writes the metadata snapshot but leaves
the batch writer's buffer intact and persists no interaction
(core.py:243-256 never touches `_batch_writer`). -/
theorem C7_counterexample :
    (bufferedEngine.checkpoint).writer.buffer = [sampleInteraction] ∧
    (bufferedEngine.checkpoint).storage_interactions = [] :=
  ⟨rfl, rfl⟩

/-- C7 (amended): `stop()` and `finalize()` flush the batched writer
synchronously — after either call the buffer is empty and every buffered
interaction has been appended to storage — and an `add` flushes exactly
when the size threshold is reached or the flush interval has elapsed since
the last flush; `checkpoint()`, however, performs no flush (in the engine
loop the 10-tick metrics emission flushes before the 100-tick checkpoint
would be reached). -/
theorem C7_flush_on_stop_finalize (s : EngineState) (now : ℚ) (w : BatchWriterState)
    (log : Interaction) :
    (s.stop now).writer.buffer = [] ∧
    (s.stop now).storage_interactions = s.storage_interactions ++ s.writer.buffer ∧
    (s.finalize now).writer.buffer = [] ∧
    (s.finalize now).storage_interactions = s.storage_interactions ++ s.writer.buffer ∧
    ((w.add log now).2 ++ (w.add log now).1.buffer = w.buffer ++ [log]) ∧
    ((w.add log now).1.buffer = [] ↔
      (w.batch_size ≤ w.buffer.length + 1 ∨ w.flush_interval ≤ now - w.last_flush)) := by
  refine ⟨rfl, rfl, rfl, rfl, ?_, ?_⟩
  · unfold BatchWriterState.add
    by_cases hc : (w.batch_size ≤ (w.buffer ++ [log]).length ∨
        w.flush_interval ≤ now - w.last_flush)
    · rw [if_pos hc]
      exact List.append_nil _
    · rw [if_neg hc]
      exact List.nil_append _
  · unfold BatchWriterState.add
    by_cases hc : (w.batch_size ≤ (w.buffer ++ [log]).length ∨
        w.flush_interval ≤ now - w.last_flush)
    · rw [if_pos hc]
      simp only [List.length_append, List.length_singleton, List.length_cons, List.length_nil] at hc
      simp only [BatchWriterState.flush]
      exact iff_of_true trivial hc
    · rw [if_neg hc]
      simp only [List.length_append, List.length_singleton, List.length_cons, List.length_nil] at hc
      constructor
      · intro hcontra
        exact absurd hcontra (by simp)
      · intro hcond
        exact absurd hcond hc

/-! ## Helper lemmas: economics -/

theorem buys100_filter : buys100.filter (fun i => i.action = "buy") = buys100 := by
  rw [List.filter_eq_self]
  intro a ha
  rcases List.mem_map.mp ha with ⟨j, _, rfl⟩
  simp

theorem buys100_length : buys100.length = 100 := by
  unfold buys100
  rw [List.length_map, List.length_range]

/-- C9: on the fixed log of 100 `"buy"` interactions evenly spaced over
1000 ticks with price 100, the transactional revenue model computes a
cumulative revenue of exactly 10,000; and for any positive derived growth
rate `k` the logistic adoption rate is strictly increasing in the tick
count up to (indeed, not only up to) the configured inflection tick. -/
theorem C9_economics (viral conv t0 t1 t2 : ℝ)
    (hk : 0 < adoptionK viral conv) (h12 : t1 < t2) (hle : t2 ≤ t0) :
    (calculate_revenue_metrics_transactional buys100 1000 100).cumulative_revenue = 10000 ∧
    adoptionRate (adoptionK viral conv) t0 t1 < adoptionRate (adoptionK viral conv) t0 t2 := by
  constructor
  · simp only [calculate_revenue_metrics_transactional]
    rw [buys100_filter, buys100_length]
    norm_num
  · unfold adoptionRate
    have hmul : 0 < adoptionK viral conv * (t2 - t1) :=
      mul_pos hk (sub_pos.mpr h12)
    have hexp : Real.exp (-(adoptionK viral conv) * (t2 - t0)) <
        Real.exp (-(adoptionK viral conv) * (t1 - t0)) := by
      apply Real.exp_lt_exp.mpr
      nlinarith
    have hpos : 0 < 1 + Real.exp (-(adoptionK viral conv) * (t2 - t0)) := by positivity
    exact one_div_lt_one_div_of_lt hpos (by linarith)

/-- Witness for C9 with the source defaults: viral coefficient 0.1 and
conversion rate 0.05 give k = 0.15 > 0; inflection tick 100, ticks 0 < 1. -/
theorem C9_economics_witness :
    (calculate_revenue_metrics_transactional buys100 1000 100).cumulative_revenue = 10000 ∧
    adoptionRate (adoptionK 0.1 0.05) 100 0 < adoptionRate (adoptionK 0.1 0.05) 100 1 :=
  ⟨(C9_economics 0.1 0.05 100 0 1 (by norm_num [adoptionK]) (by norm_num) (by norm_num)).1,
   (C9_economics 0.1 0.05 100 0 1 (by norm_num [adoptionK]) (by norm_num) (by norm_num)).2⟩

/-! ## Helper lemmas: emergence detector -/

theorem flag_mem_self (s : EmergenceState) (t sev : String) :
    ∃ f ∈ (s.flag t sev).flags, f.type = t := by
  unfold EmergenceState.flag
  rcases hE : s.flags.getLast? with _ | prev
  · simp only [hE]
    exact ⟨⟨t, sev, s.action_history.length⟩,
      List.mem_append_right _ (List.mem_singleton_self _), rfl⟩
  · simp only [hE]
    split
    · rename_i heq
      refine ⟨prev, ?_, heq⟩
      rcases List.mem_getLast?_eq_getLast hE with ⟨hne, hx⟩
      rw [hx]
      exact List.getLast_mem hne
    · exact ⟨⟨t, sev, s.action_history.length⟩,
        List.mem_append_right _ (List.mem_singleton_self _), rfl⟩

theorem flag_mem_mono (s : EmergenceState) (t sev : String) (f : Flag) (hf : f ∈ s.flags) :
    f ∈ (s.flag t sev).flags := by
  unfold EmergenceState.flag
  rcases hE : s.flags.getLast? with _ | prev
  · simp only [hE]
    exact List.mem_append_left _ hf
  · simp only [hE]
    split
    · exact hf
    · exact List.mem_append_left _ hf

theorem flag_chain (s : EmergenceState) (t sev : String)
    (h : s.flags.Chain' (fun f g => f.type ≠ g.type)) :
    (s.flag t sev).flags.Chain' (fun f g => f.type ≠ g.type) := by
  unfold EmergenceState.flag
  rcases hE : s.flags.getLast? with _ | prev
  · simp only [hE]
    rw [List.chain'_append]
    refine ⟨h, List.chain'_singleton _, ?_⟩
    intro x hx y _
    rw [hE] at hx
    simp at hx
  · simp only [hE]
    split
    · exact h
    · rename_i hneq
      rw [List.chain'_append]
      refine ⟨h, List.chain'_singleton _, ?_⟩
      intro x hx y hy
      rw [hE, Option.mem_some_iff] at hx
      simp only [List.head?_cons, Option.mem_some_iff] at hy
      subst hx
      subst hy
      exact hneq

theorem foldl_flag_mono (p : String → Prop) [DecidablePred p] (keys : List String)
    (t sev : String) : ∀ (s : EmergenceState) (f : Flag), f ∈ s.flags →
    f ∈ (keys.foldl (fun st a => if p a then st.flag t sev else st) s).flags := by
  induction keys with
  | nil => exact fun s f hf => hf
  | cons b tl ih =>
    intro s f hf
    rw [List.foldl_cons]
    by_cases hb : p b
    · rw [if_pos hb]
      exact ih _ f (flag_mem_mono s t sev f hf)
    · rw [if_neg hb]
      exact ih _ f hf

theorem foldl_flag_mem (p : String → Prop) [DecidablePred p] (keys : List String)
    (t sev : String) : ∀ (s : EmergenceState) (a : String), a ∈ keys → p a →
    ∃ f ∈ (keys.foldl (fun st x => if p x then st.flag t sev else st) s).flags,
      f.type = t := by
  induction keys with
  | nil => intro s a ha; cases ha
  | cons b tl ih =>
    intro s a ha hp
    rw [List.foldl_cons]
    rcases List.mem_cons.mp ha with rfl | hmem
    · rw [if_pos hp]
      rcases flag_mem_self s t sev with ⟨f, hf, hft⟩
      exact ⟨f, foldl_flag_mono p tl t sev _ f hf, hft⟩
    · by_cases hb : p b
      · rw [if_pos hb]
        exact ih _ a hmem hp
      · rw [if_neg hb]
        exact ih _ a hmem hp

theorem foldl_flag_id (p : String → Prop) [DecidablePred p] (keys : List String)
    (t sev : String) : ∀ (s : EmergenceState), (∀ a ∈ keys, ¬ p a) →
    keys.foldl (fun st a => if p a then st.flag t sev else st) s = s := by
  induction keys with
  | nil => exact fun s _ => rfl
  | cons b tl ih =>
    intro s h
    rw [List.foldl_cons, if_neg (h b (List.mem_cons_self b tl))]
    exact ih s (fun a ha => h a (List.mem_cons_of_mem b ha))

theorem foldl_flag_chain (p : String → Prop) [DecidablePred p] (keys : List String)
    (t sev : String) : ∀ (s : EmergenceState),
    s.flags.Chain' (fun f g => f.type ≠ g.type) →
    (keys.foldl (fun st a => if p a then st.flag t sev else st) s).flags.Chain'
      (fun f g => f.type ≠ g.type) := by
  induction keys with
  | nil => exact fun s h => h
  | cons b tl ih =>
    intro s h
    rw [List.foldl_cons]
    by_cases hb : p b
    · rw [if_pos hb]
      exact ih _ (flag_chain s t sev h)
    · rw [if_neg hb]
      exact ih _ h

theorem check_patterns_chain (s : EmergenceState)
    (h : s.flags.Chain' (fun f g => f.type ≠ g.type)) :
    s.check_patterns.flags.Chain' (fun f g => f.type ≠ g.type) := by
  simp only [EmergenceState.check_patterns]
  repeat' split
  all_goals repeat' apply flag_chain
  all_goals apply foldl_flag_chain
  all_goals exact h

theorem observe_chain (s : EmergenceState) (a : String)
    (h : s.flags.Chain' (fun f g => f.type ≠ g.type)) :
    (s.observe a).flags.Chain' (fun f g => f.type ≠ g.type) := by
  simp only [EmergenceState.observe]
  split
  · exact check_patterns_chain _ h
  · exact h

theorem foldl_observe_chain (feed : List String) : ∀ (s : EmergenceState),
    s.flags.Chain' (fun f g => f.type ≠ g.type) →
    (feed.foldl EmergenceState.observe s).flags.Chain' (fun f g => f.type ≠ g.type) := by
  induction feed with
  | nil => exact fun _ h => h
  | cons b tl ih =>
    intro s h
    rw [List.foldl_cons]
    exact ih _ (observe_chain s b h)

theorem mem_foldl_firstOccs (l : List String) :
    ∀ (acc : List String) (a : String), (a ∈ acc ∨ a ∈ l) →
      a ∈ l.foldl (fun acc x => if x ∈ acc then acc else acc ++ [x]) acc := by
  induction l with
  | nil =>
    intro acc a h
    rcases h with h | h
    · exact h
    · cases h
  | cons b tl ih =>
    intro acc a h
    rw [List.foldl_cons]
    apply ih
    by_cases hb : b ∈ acc
    · rw [if_pos hb]
      rcases h with h | h
      · exact Or.inl h
      · rcases List.mem_cons.mp h with rfl | h2
        · exact Or.inl hb
        · exact Or.inr h2
    · rw [if_neg hb]
      rcases h with h | h
      · exact Or.inl (List.mem_append_left _ h)
      · rcases List.mem_cons.mp h with rfl | h2
        · exact Or.inl (List.mem_append_right _ (List.mem_singleton_self _))
        · exact Or.inr h2

theorem mem_firstOccs (l : List String) (a : String) (h : a ∈ l) : a ∈ firstOccs l :=
  mem_foldl_firstOccs l [] a (Or.inr h)

theorem ratio_dominant (c t : ℕ) (ht : 0 < t) (h : 3 * t < 5 * c) :
    (0.6 : ℚ) < (c : ℚ) / (t : ℚ) := by
  have ht' : (0 : ℚ) < t := by exact_mod_cast ht
  rw [lt_div_iff₀ ht']
  have hh : (3 : ℚ) * t < 5 * c := by exact_mod_cast h
  linarith

theorem ratio_not_dominant (c t : ℕ) (h : 5 * c ≤ 3 * t) :
    ¬ ((0.6 : ℚ) < (c : ℚ) / (t : ℚ)) := by
  intro hlt
  rcases Nat.eq_zero_or_pos t with rfl | ht
  · rw [Nat.cast_zero, div_zero] at hlt
    norm_num at hlt
  · have ht' : (0 : ℚ) < t := by exact_mod_cast ht
    rw [lt_div_iff₀ ht'] at hlt
    have hh : (5 : ℚ) * c ≤ 3 * t := by exact_mod_cast h
    linarith

theorem ratio_not_collapse (u t : ℕ) (ht : 0 < t) (h : 3 * t ≤ 20 * u) :
    ¬ ((u : ℚ) / (t : ℚ) < (0.15 : ℚ)) := by
  intro hlt
  have ht' : (0 : ℚ) < t := by exact_mod_cast ht
  rw [div_lt_iff₀ ht'] at hlt
  have hh : (3 : ℚ) * t ≤ 20 * u := by exact_mod_cast h
  linarith

theorem check_patterns_id (s : EmergenceState)
    (hdom : ∀ a ∈ firstOccs (lastN s.window_size s.action_history),
      ¬ ((0.6 : ℚ) < ((lastN s.window_size s.action_history).count a : ℚ) /
        ((lastN s.window_size s.action_history).length : ℚ)))
    (hdiv : ¬ (((firstOccs (lastN s.window_size s.action_history)).length : ℚ) /
      ((lastN s.window_size s.action_history).length : ℚ) < (0.15 : ℚ)))
    (hshift : ¬ (s.window_size * 2 ≤ s.action_history.length)) :
    s.check_patterns = s := by
  simp only [EmergenceState.check_patterns]
  rw [if_neg hshift, if_neg hdiv, foldl_flag_id _ _ _ _ _ hdom]

theorem observe_dominance (s : EmergenceState) (a act : String)
    (hfull : s.window_size ≤ s.action_history.length + 1)
    (hdom : (0.6 : ℚ) <
      ((lastN s.window_size (s.action_history ++ [a])).count act : ℚ) /
      ((lastN s.window_size (s.action_history ++ [a])).length : ℚ)) :
    ∃ f ∈ (s.observe a).flags, f.type = "action_dominance" := by
  have hcount : 0 < (lastN s.window_size (s.action_history ++ [a])).count act := by
    by_contra hc
    push_neg at hc
    have h0 : (lastN s.window_size (s.action_history ++ [a])).count act = 0 :=
      Nat.le_zero.mp hc
    rw [h0] at hdom
    norm_num at hdom
  have hmem : act ∈ firstOccs (lastN s.window_size (s.action_history ++ [a])) :=
    mem_firstOccs _ _ (List.count_pos_iff.mp hcount)
  have hbase := foldl_flag_mem
    (fun x => (0.6 : ℚ) <
      ((lastN s.window_size (s.action_history ++ [a])).count x : ℚ) /
      ((lastN s.window_size (s.action_history ++ [a])).length : ℚ))
    (firstOccs (lastN s.window_size (s.action_history ++ [a])))
    "action_dominance" "warning" ({ s with action_history := s.action_history ++ [a] })
    act hmem hdom
  rcases hbase with ⟨f, hf, hft⟩
  simp only [EmergenceState.observe]
  rw [if_pos (by
    simp only [List.length_append, List.length_singleton, List.length_cons, List.length_nil]
    omega)]
  simp only [EmergenceState.check_patterns]
  repeat' split
  all_goals refine ⟨f, ?_, hft⟩
  all_goals repeat' apply flag_mem_mono
  all_goals exact hf

/-- C8 counterexample: the claim "flags action dominance whenever one
action type accounts for at least 60% of the window" is false at exactly
60%: with window size 20 and a full window in which `"a"` occurs 12 times
(12/20 = 60%), the detector raises no flag at all — the source tests
`ratio > 0.6` strictly (emergence.py:27). -/
theorem C8_counterexample :
    (((List.replicate 12 "a" ++ (List.replicate 4 "b" ++ List.replicate 4 "c")).foldl
        EmergenceState.observe initEmergence).action_history.length = 20) ∧
    ((lastN 20 (((List.replicate 12 "a" ++ (List.replicate 4 "b" ++ List.replicate 4 "c")).foldl
        EmergenceState.observe initEmergence).action_history)).count "a" = 12) ∧
    (((List.replicate 12 "a" ++ (List.replicate 4 "b" ++ List.replicate 4 "c")).foldl
        EmergenceState.observe initEmergence).flags = []) := by
  have hsplit : (List.replicate 12 "a" ++ (List.replicate 4 "b" ++ List.replicate 4 "c")) =
      (List.replicate 12 "a" ++ (List.replicate 4 "b" ++ List.replicate 3 "c")) ++ ["c"] := by
    decide
  have h19 : (List.replicate 12 "a" ++ (List.replicate 4 "b" ++ List.replicate 3 "c")).foldl
      EmergenceState.observe initEmergence =
      { window_size := 20, anomaly_threshold := 2,
        action_history :=
          List.replicate 12 "a" ++ (List.replicate 4 "b" ++ List.replicate 3 "c"),
        flags := [] } := rfl
  rw [hsplit, List.foldl_append, h19, List.foldl_cons, List.foldl_nil]
  simp only [EmergenceState.observe]
  rw [if_pos (by decide)]
  have hid := check_patterns_id
    ({ window_size := 20, anomaly_threshold := 2,
       action_history :=
         (List.replicate 12 "a" ++ (List.replicate 4 "b" ++ List.replicate 3 "c")) ++ ["c"],
       flags := [] })
    (by
      intro x hx
      have hfo : firstOccs (lastN 20
          ((List.replicate 12 "a" ++ (List.replicate 4 "b" ++ List.replicate 3 "c")) ++ ["c"]))
          = ["a", "b", "c"] := rfl
      rw [hfo] at hx
      fin_cases hx
      · exact ratio_not_dominant _ _ (by decide)
      · exact ratio_not_dominant _ _ (by decide)
      · exact ratio_not_dominant _ _ (by decide))
    (ratio_not_collapse _ _ (by decide) (by decide))
    (by decide)
  rw [hid]
  exact ⟨by decide, by decide, rfl⟩

/-- C8 (amended): once the window is full the detector flags action
dominance whenever one action type accounts for strictly more than 60% of
the window (at exactly 60% no dominance flag is raised), and the flags
list never holds two consecutive flags of the same type: every append is
suppressed when the immediately preceding flag has the same type, for any
observation sequence. -/
theorem C8_dominance_dedup (s : EmergenceState) (a act : String)
    (hchain : s.flags.Chain' (fun f g => f.type ≠ g.type))
    (hfull : s.window_size ≤ s.action_history.length + 1)
    (hdom : (0.6 : ℚ) <
      ((lastN s.window_size (s.action_history ++ [a])).count act : ℚ) /
      ((lastN s.window_size (s.action_history ++ [a])).length : ℚ)) :
    (∃ f ∈ (s.observe a).flags, f.type = "action_dominance") ∧
    ∀ (feed : List String),
      ((feed.foldl EmergenceState.observe s).flags).Chain' (fun f g => f.type ≠ g.type) :=
  ⟨observe_dominance s a act hfull hdom,
   fun feed => foldl_observe_chain feed s hchain⟩

/-- Witness for the amended C8: after 12 `"a"` and 7 `"b"` observations a
13th `"a"` makes `"a"` occupy 13/20 = 65% of the full window, and a
dominance flag is present; the flags list stays free of adjacent
duplicates. -/
theorem C8_dominance_dedup_witness :
    (∃ f ∈ (((List.replicate 12 "a" ++ List.replicate 7 "b").foldl
        EmergenceState.observe initEmergence).observe "a").flags,
      f.type = "action_dominance") ∧
    ((["a"].foldl EmergenceState.observe
        ((List.replicate 12 "a" ++ List.replicate 7 "b").foldl
          EmergenceState.observe initEmergence)).flags).Chain'
      (fun f g => f.type ≠ g.type) := by
  have h := C8_dominance_dedup
    ((List.replicate 12 "a" ++ List.replicate 7 "b").foldl
      EmergenceState.observe initEmergence) "a" "a"
    (by decide) (by decide)
    (ratio_dominant _ _ (by decide) (by decide))
  exact ⟨h.1, h.2 ["a"]⟩

end WhyCombinator
